import Mathlib

/-!
Shallow embedding of `hub/util/bugout_reporter.py` and `hub/util/generate_id.py`.

The reporting config file is a JSON object; we model JSON scalar values with
`JVal`, a JSON object (Python dict) as an ordered association list without
duplicate keys, and the state of the file on disk with `FileState`.  File and
network effects are made explicit: functions take the current `FileState` and
return the new one; the fresh UUID drawn by `uuid.uuid4()` and the success of
the best-effort write are parameters.
-/

namespace Hub

/-- A JSON scalar value as stored in the reporting config file (Python values
after `json.load`). -/
inductive JVal where
  | null
  | bool (b : Bool)
  | str (s : String)
  | num (n : Int)
deriving DecidableEq, Repr

/-- Python `==` on loaded JSON values: `True == 1` and `False == 0` hold across
the bool/int types; all other cross-type comparisons are unequal. -/
def pyEq : JVal → JVal → Bool
  | JVal.null, JVal.null => true
  | JVal.bool a, JVal.bool b => a == b
  | JVal.str a, JVal.str b => a == b
  | JVal.num a, JVal.num b => a == b
  | JVal.bool b, JVal.num n => if b then n == 1 else n == 0
  | JVal.num n, JVal.bool b => if b then n == 1 else n == 0
  | _, _ => false

/-- Python `str()` of a loaded JSON value, as used by f-string interpolation. -/
def pyStr : JVal → String
  | JVal.null => "None"
  | JVal.bool true => "True"
  | JVal.bool false => "False"
  | JVal.str s => s
  | JVal.num n => toString n

/-- A JSON object / Python dict, as an ordered key-value list (keys unique). -/
abbrev Config := List (String × JVal)

/-- Raw key lookup: Python `d[k]` returns the stored value (a stored JSON null
comes back as Python `None`); a missing key raises `KeyError`, modeled by
`none`. -/
def lookupKey : Config → String → Option JVal
  | [], _ => none
  | (k', v) :: rest, k => if k' = k then some v else lookupKey rest k

/-- Python `d.get(k)`: returns `None` both when the key is missing and when the
stored value is JSON null, so those two cases collapse to `none`. -/
def pyGet (c : Config) (k : String) : Option JVal :=
  match lookupKey c k with
  | some JVal.null => none
  | v => v

/-- Python dict assignment `d[k] = v`: replaces the value in place when the key
exists, otherwise appends the new binding (dict insertion order). -/
def setKey : Config → String → JVal → Config
  | [], k, v => [(k, v)]
  | (k', v') :: rest, k, v =>
      if k' = k then (k, v) :: rest else (k', v') :: setKey rest k v

/-- State of the reporting config file on disk: missing, present but not valid
JSON, or present and parsing to the JSON object `c`. -/
inductive FileState where
  | absent
  | corrupt
  | file (c : Config)
deriving DecidableEq, Repr

/-- The load step at the top of `save_reporting_config` (lines 29-42): an
existing file is parsed, tolerating parse failure by keeping the empty dict; a
missing file leaves the empty dict (the parent directory is created, assumed to
succeed). -/
def load_for_save : FileState → Config
  | FileState.file c => c
  | _ => []

/-- save_reporting_config (lines 16-61): loads the current file contents,
assigns client_id only when absent (from the argument if given, else the fresh
UUID `freshId`), overwrites username only when the argument is non-None, sets
consent unconditionally, then best-effort writes the result back (`writeOk`
models whether the write succeeds; failure is silently ignored).  Returns the
in-memory config and the resulting file state. -/
def save_reporting_config (fs : FileState) (consent : Bool)
    (client_id username : Option String) (freshId : String) (writeOk : Bool) :
    Config × FileState :=
  let rc0 := load_for_save fs
  let rc1 := match client_id with
    | some cid =>
        if pyGet rc0 "client_id" = none then setKey rc0 "client_id" (JVal.str cid) else rc0
    | none => rc0
  let rc2 := if pyGet rc1 "client_id" = none then setKey rc1 "client_id" (JVal.str freshId) else rc1
  let rc3 := match username with
    | some u => setKey rc2 "username" (JVal.str u)
    | none => rc2
  let rc4 := setKey rc3 "consent" (JVal.bool consent)
  (rc4, if writeOk then FileState.file rc4 else fs)

/-- The machine_id derivation and username substitution of get_reporting_config
(lines 79-85), applied to the parsed config.  `reporting_config["machine_id"] =
reporting_config["client_id"]` raises KeyError when client_id is missing; the
caller's blanket except swallows it and the config is returned as-is.  The
username substitution fires when `get("username")` is not None and the stored
client_id differs (Python `!=`) from the stored username. -/
def deriveMachineId (c : Config) : Config :=
  match lookupKey c "client_id" with
  | none => c
  | some cid =>
      let c1 := setKey c "machine_id" cid
      match pyGet c1 "username" with
      | none => c1
      | some u => if pyEq cid u then c1 else setKey c1 "client_id" u

/-- get_reporting_config (lines 64-91): starts from the default
`{"consent": false}`; a missing file generates a fresh client_id and persists
it via save_reporting_config with consent true; an unreadable/unparseable file
raises inside the try, so the default is returned; an existing parseable file
is loaded and then the machine_id derivation runs.  Any exception is swallowed
and whatever `reporting_config` currently holds is returned. -/
def get_reporting_config (fs : FileState) (freshId : String) (writeOk : Bool) :
    Config × FileState :=
  match fs with
  | FileState.absent =>
      let res := save_reporting_config FileState.absent true (some freshId) none freshId writeOk
      (deriveMachineId res.1, res.2)
  | FileState.corrupt => ([("consent", JVal.bool false)], FileState.corrupt)
  | FileState.file c => (deriveMachineId c, FileState.file c)

/-- Does `pat` occur at the start of `s`?  Structural model of Python
`s.startswith(pat)` on the character lists of the strings. -/
def leadsWith : List Char → List Char → Bool
  | [], _ => true
  | _ :: _, [] => false
  | p :: ps, c :: cs => p == c && leadsWith ps cs

/-- Does `pat` occur anywhere in `s`?  Structural model of Python `pat in s`
(substring containment) on character lists. -/
def containsSeq (pat : List Char) : List Char → Bool
  | [] => leadsWith pat []
  | c :: cs => leadsWith pat (c :: cs) || containsSeq pat cs

/-- Python `"username" in tag` on a tag string. -/
def containsUsername (t : String) : Bool :=
  containsSeq "username".toList t.toList

/-- find_current_username (lines 155-159): linear scan over the reporter's tag
list for the first tag containing "username", returning its index and the full
tag, or `none` (Python `(None, None)`). -/
def find_current_username : List String → Option (Nat × String)
  | [] => none
  | t :: ts =>
      if containsUsername t then some (0, t)
      else (find_current_username ts).map (fun p => (p.1 + 1, p.2))

/-- The username-tag update in the token branch of feature_report_path (lines
141-147): append `"username:" ++ name` when no tag contains "username";
otherwise overwrite the found tag in place, but only when the prefixed resolved
name differs from the full existing tag. -/
def update_username_tag (tags : List String) (name : String) : List String :=
  match find_current_username tags with
  | none => tags ++ ["username:" ++ name]
  | some (i, cur) =>
      if ("username:" ++ name) ≠ cur then tags.set i ("username:" ++ name) else tags

/-- The username-tag update as the spec describes it (for comparison with
`update_username_tag`, which is taken from the source): the equality check is
said to compare the full existing tag string against the bare resolved
username, without the "username:" prefix. -/
def update_username_tag_claimed (tags : List String) (name : String) : List String :=
  match find_current_username tags with
  | none => tags ++ ["username:" ++ name]
  | some (i, cur) =>
      if name ≠ cur then tags.set i ("username:" ++ name) else tags

/-- The payload handed to `hub_reporter.feature_report` (the reporting sink) at
lines 149-152. -/
structure FeatureReport where
  feature_name : String
  parameters : Config
deriving DecidableEq, Repr

/-- feature_report_path (lines 124-152): injects the path into
`parameters["Path"]` when it starts with `starts_with`; when a token is given,
resolves the username through the backend (the external
`client.get_user_profile()["name"]` call is the parameter `resolved_name`) and
updates the tag list; finally emits the feature report.  Returns the new tag
list and the emitted report. -/
def feature_report_path (tags : List String) (path : String)
    (feature_name : String) (parameters : Config) (starts_with : String)
    (token : Option String) (resolved_name : String) :
    List String × FeatureReport :=
  let parameters :=
    if leadsWith starts_with.toList path.toList then
      setKey parameters "Path" (JVal.str path)
    else parameters
  let tags :=
    match token with
    | none => tags
    | some _ => update_username_tag tags resolved_name
  (tags, ⟨feature_name, parameters⟩)

/-- The module-level tag setup (lines 106-121): the reporter starts with an
empty tag list; a `username:<u>` tag is appended when the loaded config has a
username, then a `machine_id:<m>` tag when it has a machine_id (f-string
interpolation stringifies the stored values). -/
def init_tags (cfg : Config) : List String :=
  let tags : List String := []
  let tags := match pyGet cfg "username" with
    | none => tags
    | some u => tags ++ ["username:" ++ pyStr u]
  match pyGet cfg "machine_id" with
  | none => tags
  | some m => tags ++ ["machine_id:" ++ pyStr m]

/-- Number of tags containing the substring "username". -/
def usernameCount (tags : List String) : Nat :=
  tags.countP (fun t => containsUsername t)

/-- Error raised by Python when `>>` is applied with a negative shift count
(ValueError), the defined error for invalid widths in generate_id. -/
inductive IdError where
  | invalidWidth
deriving DecidableEq, Repr

/-- generate_id from hub/util/generate_id.py: `shift = 128 - 8*itemsize`; the
128-bit draw `uuid4().int` is the parameter `r`; a negative shift makes
Python's `>>` raise, modeled as the error case; the final fixed-width cast
wraps modulo `2^(8*itemsize)`. -/
def generate_id (itemsize : Nat) (r : Nat) : Except IdError Nat :=
  if 8 * itemsize ≤ 128 then
    Except.ok ((r >>> (128 - 8 * itemsize)) % 2 ^ (8 * itemsize))
  else
    Except.error IdError.invalidWidth

theorem lookupKey_setKey_self (c : Config) (k : String) (v : JVal) :
    lookupKey (setKey c k v) k = some v := by
  induction c with
  | nil => simp [setKey, lookupKey]
  | cons p rest ih =>
      obtain ⟨k', v'⟩ := p
      by_cases h : k' = k
      · simp [setKey, lookupKey, h]
      · simp [setKey, lookupKey, h, ih]

theorem lookupKey_setKey_ne (c : Config) (k k' : String) (v : JVal)
    (h : k' ≠ k) : lookupKey (setKey c k v) k' = lookupKey c k' := by
  have h2 : ¬ (k = k') := fun hh => h hh.symm
  induction c with
  | nil => simp [setKey, lookupKey, h2]
  | cons p rest ih =>
      obtain ⟨k₀, v₀⟩ := p
      by_cases h0 : k₀ = k
      · have h3 : ¬ (k₀ = k') := by rw [h0]; exact h2
        simp [setKey, lookupKey, h0, h2, h3]
      · by_cases h1 : k₀ = k'
        · simp [setKey, lookupKey, h0, h1, h, ih]
        · simp [setKey, lookupKey, h0, h1, ih]

theorem pyGet_of_lookupKey (c : Config) (k : String) (v : JVal)
    (h1 : lookupKey c k = some v) (h2 : v ≠ JVal.null) :
    pyGet c k = some v := by
  unfold pyGet
  rw [h1]
  cases v <;> simp_all

theorem leadsWith_append_self (p r : List Char) : leadsWith p (p ++ r) = true := by
  induction p with
  | nil => simp [leadsWith]
  | cons c cs ih => simp [leadsWith, ih]

theorem containsSeq_of_leadsWith (pat s : List Char) (h : leadsWith pat s = true) :
    containsSeq pat s = true := by
  cases s with
  | nil => simpa [containsSeq] using h
  | cons c cs => simp [containsSeq, h]

theorem containsUsername_mk_tag (name : String) :
    containsUsername ("username:" ++ name) = true := by
  unfold containsUsername
  have h1 : ("username:" ++ name).toList = "username".toList ++ (':' :: name.toList) := by
    simp [String.toList]
  rw [h1]
  exact containsSeq_of_leadsWith _ _ (leadsWith_append_self _ _)

theorem find_current_username_eq_none (tags : List String) :
    find_current_username tags = none ↔ ∀ t ∈ tags, containsUsername t = false := by
  induction tags with
  | nil => simp [find_current_username]
  | cons t ts ih =>
      by_cases h : containsUsername t
      · simp [find_current_username, h]
      · simp [find_current_username, h, Option.map_eq_none', ih, Bool.not_eq_true]

theorem find_current_username_eq_some (tags : List String) (i : Nat) (cur : String)
    (h : find_current_username tags = some (i, cur)) :
    tags[i]? = some cur ∧ containsUsername cur = true ∧
      ∀ j, j < i → ∀ t, tags[j]? = some t → containsUsername t = false := by
  induction tags generalizing i cur with
  | nil => simp [find_current_username] at h
  | cons t ts ih =>
      by_cases hc : containsUsername t
      · rw [find_current_username, if_pos hc] at h
        obtain ⟨rfl, rfl⟩ : 0 = i ∧ t = cur := by
          have := Option.some.inj h
          exact ⟨congrArg Prod.fst this, congrArg Prod.snd this⟩
        refine ⟨by simp, hc, ?_⟩
        intro j hj
        omega
      · rw [find_current_username, if_neg hc] at h
        cases hf : find_current_username ts with
        | none => rw [hf] at h; simp at h
        | some p =>
            obtain ⟨i', cur'⟩ := p
            rw [hf] at h
            simp only [Option.map_some'] at h
            obtain ⟨hi, hcur⟩ : i' + 1 = i ∧ cur' = cur := by
              have := Option.some.inj h
              exact ⟨congrArg Prod.fst this, congrArg Prod.snd this⟩
            subst hi; subst hcur
            obtain ⟨h1, h2, h3⟩ := ih i' cur' hf
            refine ⟨by simpa using h1, h2, ?_⟩
            intro j hj t' ht'
            cases j with
            | zero =>
                simp at ht'
                subst ht'
                simpa [Bool.not_eq_true] using hc
            | succ j' =>
                apply h3 j' (by omega)
                simpa using ht'

theorem countP_set_first_username (tags : List String) (i : Nat) (cur new : String)
    (hf : find_current_username tags = some (i, cur))
    (hnew : containsUsername new = true) :
    (tags.set i new).countP (fun t => containsUsername t)
      = tags.countP (fun t => containsUsername t) := by
  induction tags generalizing i cur with
  | nil => simp [find_current_username] at hf
  | cons t ts ih =>
      by_cases hc : containsUsername t
      · rw [find_current_username, if_pos hc] at hf
        have hi : 0 = i := congrArg Prod.fst (Option.some.inj hf)
        subst hi
        simp [List.countP_cons, hc, hnew]
      · rw [find_current_username, if_neg hc] at hf
        cases hfs : find_current_username ts with
        | none => rw [hfs] at hf; simp at hf
        | some p =>
            obtain ⟨i', cur'⟩ := p
            rw [hfs] at hf
            simp only [Option.map_some'] at hf
            have hi : i' + 1 = i := congrArg Prod.fst (Option.some.inj hf)
            subst hi
            simp [List.countP_cons, hc, ih i' cur' hfs]

theorem generate_id_ok_of_le (w r : Nat) (hw : 8 * w ≤ 128) (hr : r < 2 ^ 128) :
    generate_id w r = Except.ok (r >>> (128 - 8 * w)) ∧
      r >>> (128 - 8 * w) < 2 ^ (8 * w) := by
  have hlt : r >>> (128 - 8 * w) < 2 ^ (8 * w) := by
    rw [Nat.shiftRight_eq_div_pow]
    apply Nat.div_lt_of_lt_mul
    calc r < 2 ^ 128 := hr
      _ = 2 ^ (128 - 8 * w) * 2 ^ (8 * w) := by rw [← pow_add]; congr 1; omega
  refine ⟨?_, hlt⟩
  unfold generate_id
  rw [if_pos hw, Nat.mod_eq_of_lt hlt]

theorem deriveMachineId_subst (c : Config) (cid u : JVal)
    (h1 : lookupKey c "client_id" = some cid)
    (h2 : lookupKey c "username" = some u) (h3 : u ≠ JVal.null)
    (h4 : pyEq cid u = false) :
    lookupKey (deriveMachineId c) "client_id" = some u ∧
      lookupKey (deriveMachineId c) "machine_id" = some cid := by
  unfold deriveMachineId
  rw [h1]
  dsimp only
  have hmu : lookupKey (setKey c "machine_id" cid) "username" = some u := by
    rw [lookupKey_setKey_ne c "machine_id" "username" cid (by decide)]
    exact h2
  rw [pyGet_of_lookupKey _ _ _ hmu h3]
  dsimp only
  rw [if_neg (by simp [h4])]
  constructor
  · exact lookupKey_setKey_self _ _ _
  · rw [lookupKey_setKey_ne _ "client_id" "machine_id" u (by decide)]
    exact lookupKey_setKey_self _ _ _

theorem usernameCount_update_username_tag (tags : List String) (name : String)
    (h : usernameCount tags ≤ 1) :
    usernameCount (update_username_tag tags name) ≤ 1 := by
  unfold update_username_tag
  cases hf : find_current_username tags with
  | none =>
      have h0 : usernameCount tags = 0 := by
        unfold usernameCount
        rw [List.countP_eq_zero]
        intro t ht
        simp [(find_current_username_eq_none tags).mp hf t ht]
      unfold usernameCount at *
      rw [List.countP_append, h0]
      simp [List.countP_cons, containsUsername_mk_tag]
  | some p =>
      obtain ⟨i, cur⟩ := p
      dsimp only
      by_cases hne : ("username:" ++ name) ≠ cur
      · rw [if_pos hne]
        unfold usernameCount at *
        rw [countP_set_first_username tags i cur _ hf (containsUsername_mk_tag name)]
        exact h
      · rw [if_neg hne]
        exact h

/-- C1: the blanket except in get_reporting_config does not always return the
default consent-false config.  On a file parsing to the empty JSON object the
machine_id derivation raises KeyError after `reporting_config` was already
reassigned to the parsed object, so the parsed empty object is returned, not
the default; on a corrupt (non-JSON) file the default is indeed returned. -/
theorem get_reporting_config_keyerror_divergence :
    (get_reporting_config (FileState.file []) "f" true).1 = [] ∧
      (get_reporting_config FileState.corrupt "f" true).1 = [("consent", JVal.bool false)] ∧
      ([] : Config) ≠ [("consent", JVal.bool false)] :=
  ⟨rfl, rfl, by decide⟩

/-- C2 counterexample: with tag list ["myusername"] and resolved username
"myusername", the bare-name comparison the claim describes finds the full tag
equal to the bare name and leaves the list unchanged, but the code compares the
prefixed name against the full tag and rewrites it, so the two behaviors are
observably different and the claimed comparison is not the code's. -/
theorem username_tag_comparison_counterexample :
    (feature_report_path ["myusername"] "p" "f" [] "hub://" (some "tok") "myusername").1
        = ["username:myusername"] ∧
      update_username_tag_claimed ["myusername"] "myusername" = ["myusername"] := by
  constructor <;> decide

/-- C2 amended: in feature_report_path with an auth token, when a username tag
already exists the equality check compares the full existing tag against the
prefixed resolved username "username:" ++ name, so the tag list is left
unchanged when the existing tag already equals the prefixed resolved name, and
the tag is rewritten in place only when the two differ. -/
theorem username_tag_comparison_amended (tags : List String)
    (path fn sw tok name : String) (params : Config) (i : Nat) (cur : String)
    (h : find_current_username tags = some (i, cur)) :
    (feature_report_path tags path fn params sw (some tok) name).1
      = if ("username:" ++ name) = cur then tags
        else tags.set i ("username:" ++ name) := by
  show update_username_tag tags name = _
  unfold update_username_tag
  rw [h]
  dsimp only
  simp only [ne_eq, ite_not]

/-- Witness for C2's amended theorem at tag list ["username:bob"] and resolved
name "bob": the prefixed comparison is an equality, so the tag list is kept. -/
theorem username_tag_comparison_amended_witness :
    find_current_username ["username:bob"] = some (0, "username:bob") ∧
      (feature_report_path ["username:bob"] "p" "f" [] "hub://" (some "tok") "bob").1
        = if ("username:" ++ "bob") = "username:bob" then ["username:bob"]
          else ["username:bob"].set 0 ("username:" ++ "bob") :=
  ⟨by decide, username_tag_comparison_amended ["username:bob"] "p" "f" "hub://" "tok"
    "bob" [] 0 "username:bob" (by decide)⟩

/-- C3: for every dtype itemsize exceeding 16 bytes the shift 128 - 8*itemsize
is negative and generate_id fails with the defined InvalidWidth error (Python
raises on a negative shift count) instead of returning a mis-shifted value. -/
theorem generate_id_invalid_width (itemsize r : Nat) (h : 16 < itemsize) :
    generate_id itemsize r = Except.error IdError.invalidWidth := by
  unfold generate_id
  rw [if_neg]
  omega

/-- Witness for C3 at itemsize 17. -/
theorem generate_id_invalid_width_witness :
    16 < 17 ∧ generate_id 17 0 = Except.error IdError.invalidWidth :=
  ⟨by omega, generate_id_invalid_width 17 0 (by omega)⟩

/-- C4: for an existing parseable config file holding a client_id and a
non-null username that differs from it, get_reporting_config returns a config
whose client_id is the username and whose machine_id is the client_id as stored
in the file, and the file on disk is left unchanged. -/
theorem get_reporting_config_username_subst (c : Config) (cid u : JVal)
    (f : String) (w : Bool)
    (h1 : lookupKey c "client_id" = some cid)
    (h2 : lookupKey c "username" = some u) (h3 : u ≠ JVal.null)
    (h4 : pyEq cid u = false) :
    lookupKey (get_reporting_config (FileState.file c) f w).1 "client_id" = some u ∧
      lookupKey (get_reporting_config (FileState.file c) f w).1 "machine_id" = some cid ∧
      (get_reporting_config (FileState.file c) f w).2 = FileState.file c := by
  obtain ⟨ha, hb⟩ := deriveMachineId_subst c cid u h1 h2 h3 h4
  exact ⟨ha, hb, rfl⟩

/-- Witness for C4 on a config file with client_id "abc" and username "bob". -/
theorem get_reporting_config_username_subst_witness :
    (lookupKey [("client_id", JVal.str "abc"), ("username", JVal.str "bob"),
        ("consent", JVal.bool true)] "client_id" = some (JVal.str "abc")) ∧
      lookupKey (get_reporting_config (FileState.file
        [("client_id", JVal.str "abc"), ("username", JVal.str "bob"),
         ("consent", JVal.bool true)]) "f" true).1 "client_id" = some (JVal.str "bob") := by
  refine ⟨by decide, ?_⟩
  exact (get_reporting_config_username_subst
    [("client_id", JVal.str "abc"), ("username", JVal.str "bob"), ("consent", JVal.bool true)]
    (JVal.str "abc") (JVal.str "bob") "f" true rfl rfl (by decide) (by decide)).1

/-- C5: save_reporting_config never overwrites an existing non-null client_id,
in both the returned config and the file state left behind; and when the loaded
config has no usable client_id it assigns it from the provided argument when
given, else from the freshly generated UUID. -/
theorem save_reporting_config_client_id_once (c : Config) (v : JVal) (consent : Bool)
    (cidArg uArg : Option String) (f : String) (w : Bool) (fs : FileState) :
    (v ≠ JVal.null → lookupKey c "client_id" = some v →
       lookupKey (save_reporting_config (FileState.file c) consent cidArg uArg f w).1
           "client_id" = some v ∧
         ∃ c', (save_reporting_config (FileState.file c) consent cidArg uArg f w).2
               = FileState.file c' ∧ lookupKey c' "client_id" = some v) ∧
      (pyGet (load_for_save fs) "client_id" = none →
        lookupKey (save_reporting_config fs consent cidArg uArg f w).1 "client_id"
          = some (JVal.str (cidArg.getD f))) := by
  constructor
  · intro hv hcid
    have hpg : pyGet c "client_id" = some v := pyGet_of_lookupKey c _ v hcid hv
    have hres : lookupKey
        (save_reporting_config (FileState.file c) consent cidArg uArg f w).1
        "client_id" = some v := by
      unfold save_reporting_config load_for_save
      dsimp only
      rw [lookupKey_setKey_ne _ "consent" "client_id" _ (by decide)]
      have husr : ∀ rc : Config, lookupKey (match uArg with
          | some u => setKey rc "username" (JVal.str u)
          | none => rc) "client_id" = lookupKey rc "client_id" := by
        intro rc
        cases uArg with
        | none => rfl
        | some u => exact lookupKey_setKey_ne _ "username" "client_id" _ (by decide)
      rw [husr]
      cases cidArg with
      | none =>
          dsimp only
          have h2 : (if pyGet c "client_id" = none
              then setKey c "client_id" (JVal.str f) else c) = c := if_neg (by simp [hpg])
          rw [h2]
          exact hcid
      | some cid =>
          dsimp only
          have h1 : (if pyGet c "client_id" = none
              then setKey c "client_id" (JVal.str cid) else c) = c := if_neg (by simp [hpg])
          rw [h1]
          have h2 : (if pyGet c "client_id" = none
              then setKey c "client_id" (JVal.str f) else c) = c := if_neg (by simp [hpg])
          rw [h2]
          exact hcid
    refine ⟨hres, ?_⟩
    cases w with
    | true =>
        exact ⟨(save_reporting_config (FileState.file c) consent cidArg uArg f true).1,
          rfl, hres⟩
    | false => exact ⟨c, rfl, hcid⟩
  · intro hnone
    unfold save_reporting_config
    dsimp only
    rw [lookupKey_setKey_ne _ "consent" "client_id" _ (by decide)]
    have husr : ∀ rc : Config, lookupKey (match uArg with
        | some u => setKey rc "username" (JVal.str u)
        | none => rc) "client_id" = lookupKey rc "client_id" := by
      intro rc
      cases uArg with
      | none => rfl
      | some u => exact lookupKey_setKey_ne _ "username" "client_id" _ (by decide)
    rw [husr]
    cases cidArg with
    | none =>
        dsimp only [Option.getD]
        rw [if_pos hnone]
        exact lookupKey_setKey_self _ _ _
    | some cid =>
        dsimp only [Option.getD]
        have h1 : (if pyGet (load_for_save fs) "client_id" = none
            then setKey (load_for_save fs) "client_id" (JVal.str cid)
            else load_for_save fs) = setKey (load_for_save fs) "client_id" (JVal.str cid) :=
          if_pos hnone
        have h2 : pyGet (setKey (load_for_save fs) "client_id" (JVal.str cid)) "client_id"
            = some (JVal.str cid) :=
          pyGet_of_lookupKey _ _ _ (lookupKey_setKey_self _ _ _) (by simp)
        rw [h1, h2]
        simp [lookupKey_setKey_self]

/-- Witness for C5: saving with a different client_id argument over a file that
already stores client_id "old" keeps "old". -/
theorem save_reporting_config_client_id_once_witness :
    ((JVal.str "old" ≠ JVal.null) ∧
      lookupKey [("client_id", JVal.str "old"), ("consent", JVal.bool false)] "client_id"
        = some (JVal.str "old")) ∧
      lookupKey (save_reporting_config
        (FileState.file [("client_id", JVal.str "old"), ("consent", JVal.bool false)])
        true (some "new") none "fresh" true).1 "client_id" = some (JVal.str "old") := by
  refine ⟨⟨by decide, by decide⟩, ?_⟩
  exact ((save_reporting_config_client_id_once
      [("client_id", JVal.str "old"), ("consent", JVal.bool false)] (JVal.str "old")
      true (some "new") none "fresh" true FileState.absent).1 (by decide) (by decide)).1

/-- C6: for every valid byte width w in {1,2,4,8,16} and every 128-bit random
draw r, generate_id returns exactly the most-significant 8*w bits of r (r
shifted right by 128 - 8*w), a value within the range of the target width. -/
theorem generate_id_valid_widths (w r : Nat) (hw : w ∈ [1, 2, 4, 8, 16])
    (hr : r < 2 ^ 128) :
    generate_id w r = Except.ok (r >>> (128 - 8 * w)) ∧
      r >>> (128 - 8 * w) < 2 ^ (8 * w) := by
  apply generate_id_ok_of_le w r _ hr
  simp only [List.mem_cons, List.not_mem_nil, or_false] at hw
  rcases hw with rfl | rfl | rfl | rfl | rfl <;> norm_num

/-- Witness for C6 at width 2 and draw 3. -/
theorem generate_id_valid_widths_witness :
    (2 ∈ [1, 2, 4, 8, 16] ∧ (3 : Nat) < 2 ^ 128) ∧
      (generate_id 2 3 = Except.ok (3 >>> 112) ∧ 3 >>> 112 < 2 ^ (8 * 2)) := by
  refine ⟨⟨by simp, by norm_num⟩, ?_⟩
  have h := generate_id_valid_widths 2 3 (by simp) (by norm_num)
  simpa using h

/-- C7: with no token the tag list is not modified and the path is injected as
parameters["Path"] exactly when it starts with the prefix; in the fresh
concrete case (empty tags, path "hub://x", feature "load", empty parameters)
the sink receives parameters equal to a single binding "Path" -> "hub://x" and
the tag list stays empty. -/
theorem feature_report_path_no_token (tags : List String) (path fn sw name : String)
    (params : Config) :
    feature_report_path tags path fn params sw none name
        = (tags, ⟨fn, if leadsWith sw.toList path.toList then
            setKey params "Path" (JVal.str path) else params⟩) ∧
      feature_report_path [] "hub://x" "load" [] "hub://" none name
        = ([], ⟨"load", [("Path", JVal.str "hub://x")]⟩) :=
  ⟨rfl, rfl⟩

/-- C8: find_current_username returns none exactly when no tag contains the
substring "username", and otherwise returns the index and the full string of
the first tag containing it (every earlier tag does not contain it). -/
theorem find_current_username_spec (tags : List String) :
    (find_current_username tags = none ↔ ∀ t ∈ tags, containsUsername t = false) ∧
      ∀ i cur, find_current_username tags = some (i, cur) →
        tags[i]? = some cur ∧ containsUsername cur = true ∧
          ∀ j, j < i → ∀ t, tags[j]? = some t → containsUsername t = false :=
  ⟨find_current_username_eq_none tags,
   fun i cur h => find_current_username_eq_some tags i cur h⟩

/-- Witness for C8: the empty tag list gives none, and after appending a
username tag the index of that tag is returned. -/
theorem find_current_username_spec_witness :
    find_current_username ([] : List String) = none ∧
      find_current_username ["machine_id:m", "username:bob"] = some (1, "username:bob") ∧
      ["machine_id:m", "username:bob"][1]? = some "username:bob" := by
  refine ⟨(find_current_username_spec []).1.mpr (by simp), by decide, ?_⟩
  exact ((find_current_username_spec ["machine_id:m", "username:bob"]).2 1
    "username:bob" (by decide)).1

/-- C9 counterexample: a config file whose stored client_id contains the
substring "username" makes module initialization build two tags containing
"username" (the username tag and the machine_id tag carrying the original
client_id), so the claimed at-most-one invariant fails at initialization. -/
theorem init_tags_counterexample :
    1 < usernameCount (init_tags (get_reporting_config
      (FileState.file [("client_id", JVal.str "myusername"),
                       ("username", JVal.str "bob"),
                       ("consent", JVal.bool true)]) "f" true).1) := by
  decide

/-- C9 amended: provided the machine_id tag appended at module initialization
does not itself contain the substring "username" (as with a generated UUID
machine id), at most one tag contains "username" after initialization, and
every feature_report_path call preserves the at-most-one invariant (it appends
a username tag only when none exists and otherwise replaces the first one in
place). -/
theorem username_tag_at_most_one (cfg : Config)
    (hm : ∀ m, pyGet cfg "machine_id" = some m →
        containsUsername ("machine_id:" ++ pyStr m) = false) :
    usernameCount (init_tags cfg) ≤ 1 ∧
      ∀ (tags : List String) (path fn sw name : String) (params : Config)
        (token : Option String), usernameCount tags ≤ 1 →
          usernameCount (feature_report_path tags path fn params sw token name).1 ≤ 1 := by
  constructor
  · unfold init_tags
    cases hu : pyGet cfg "username" with
    | none =>
        cases hmm : pyGet cfg "machine_id" with
        | none => simp [usernameCount]
        | some m =>
            dsimp only
            simp [usernameCount, List.countP_cons, hm m hmm]
    | some u =>
        cases hmm : pyGet cfg "machine_id" with
        | none =>
            dsimp only
            simp [usernameCount, List.countP_cons, containsUsername_mk_tag]
        | some m =>
            dsimp only
            simp [usernameCount, List.countP_append, List.countP_cons, hm m hmm,
              containsUsername_mk_tag]
  · intro tags path fn sw name params token h
    unfold feature_report_path
    cases token with
    | none => simpa using h
    | some t =>
        dsimp only
        exact usernameCount_update_username_tag tags name h

/-- Witness for C9's amended theorem: a config with only a username keeps the
invariant at initialization, and a call starting from one username tag keeps at
most one. -/
theorem username_tag_at_most_one_witness :
    usernameCount (init_tags [("username", JVal.str "bob")]) ≤ 1 ∧
      usernameCount (feature_report_path ["username:a"] "p" "f" [] "s"
        (some "t") "bob").1 ≤ 1 := by
  have h := username_tag_at_most_one [("username", JVal.str "bob")]
    (by intro m hm
        rw [show pyGet [("username", JVal.str "bob")] "machine_id" = none from rfl] at hm
        exact Option.noConfusion hm)
  exact ⟨h.1, h.2 ["username:a"] "p" "f" "s" "bob" [] (some "t") (by decide)⟩

/-- C10: save_reporting_config touches only client_id, username and consent:
every other key of an existing parseable config is carried unchanged into the
returned config, the written file equals the returned config when the write
succeeds, and a None username argument leaves the stored username unchanged. -/
theorem save_reporting_config_frame (c : Config) (consent : Bool)
    (cidArg uArg : Option String) (f : String) (w : Bool) (k : String)
    (hk1 : k ≠ "client_id") (hk2 : k ≠ "username") (hk3 : k ≠ "consent") :
    lookupKey (save_reporting_config (FileState.file c) consent cidArg uArg f w).1 k
        = lookupKey c k ∧
      (w = true → (save_reporting_config (FileState.file c) consent cidArg uArg f w).2
          = FileState.file (save_reporting_config (FileState.file c) consent cidArg uArg f w).1) ∧
      (uArg = none →
        lookupKey (save_reporting_config (FileState.file c) consent cidArg uArg f w).1 "username"
          = lookupKey c "username") := by
  refine ⟨?_, ?_, ?_⟩
  · unfold save_reporting_config load_for_save
    dsimp only
    rw [lookupKey_setKey_ne _ "consent" k _ hk3]
    have husr : ∀ rc : Config, lookupKey (match uArg with
        | some u => setKey rc "username" (JVal.str u)
        | none => rc) k = lookupKey rc k := by
      intro rc
      cases uArg with
      | none => rfl
      | some u => exact lookupKey_setKey_ne _ "username" k _ hk2
    rw [husr]
    have hfresh : ∀ rc : Config, lookupKey (if pyGet rc "client_id" = none
        then setKey rc "client_id" (JVal.str f) else rc) k = lookupKey rc k := by
      intro rc
      split
      · exact lookupKey_setKey_ne _ "client_id" k _ hk1
      · rfl
    rw [hfresh]
    cases cidArg with
    | none => rfl
    | some cid =>
        dsimp only
        split
        · exact lookupKey_setKey_ne _ "client_id" k _ hk1
        · rfl
  · intro hw
    subst hw
    rfl
  · intro hu
    subst hu
    unfold save_reporting_config load_for_save
    dsimp only
    rw [lookupKey_setKey_ne _ "consent" "username" _ (by decide)]
    have hfresh : ∀ rc : Config, lookupKey (if pyGet rc "client_id" = none
        then setKey rc "client_id" (JVal.str f) else rc) "username" = lookupKey rc "username" := by
      intro rc
      split
      · exact lookupKey_setKey_ne _ "client_id" "username" _ (by decide)
      · rfl
    rw [hfresh]
    cases cidArg with
    | none => rfl
    | some cid =>
        dsimp only
        split
        · exact lookupKey_setKey_ne _ "client_id" "username" _ (by decide)
        · rfl

/-- Witness for C10 on a config carrying an unknown key "extra". -/
theorem save_reporting_config_frame_witness :
    (("extra" : String) ≠ "client_id" ∧ ("extra" : String) ≠ "username"
        ∧ ("extra" : String) ≠ "consent") ∧
      lookupKey (save_reporting_config (FileState.file
        [("extra", JVal.num 7), ("username", JVal.str "u"),
         ("client_id", JVal.str "x"), ("consent", JVal.bool false)])
        true (some "y") none "fr" true).1 "extra"
        = lookupKey [("extra", JVal.num 7), ("username", JVal.str "u"),
            ("client_id", JVal.str "x"), ("consent", JVal.bool false)] "extra" := by
  refine ⟨⟨by decide, by decide, by decide⟩, ?_⟩
  exact (save_reporting_config_frame
    [("extra", JVal.num 7), ("username", JVal.str "u"),
     ("client_id", JVal.str "x"), ("consent", JVal.bool false)]
    true (some "y") none "fr" true "extra" (by decide) (by decide) (by decide)).1

end Hub
